import Mathlib

/-
Verification of the tool-calling core of the mcp-streamlit-app repository
(src/mcp_client/client_st.py), shallowly embedded in Lean 4.

The embedding models:
- Python scalar values flowing through tool arguments (`PyVal`);
- the argument-coercion layer of `CustomMCPClient.call_tool` (`coerceParam`,
  `coerceArgs`);
- the in-process tool dispatcher `CustomMCPClient.call_tool` (`callTool`),
  with side effects (module loading, function execution) made explicit as an
  effect list;
- both clients' `connect_to_server` with their effect order (`mcpConnect`,
  `customConnect`);
- both clients' `process_query` loops over the model response's content
  blocks (`mcpProcessQuery`, `customProcessQuery`), recording every follow-up
  model request issued;
- both clients' `cleanup` (`mcpCleanup`, `customCleanup`).

External Python primitives (float() parsing of strings, str() rendering of
floats, json.loads, the loaded module's function table, the upstream model
API's follow-up replies) are parameters of the embedding; Python floats are
modelled as rationals.
-/

namespace MCPSt

/-- A Python scalar value as it can appear in tool arguments (JSON scalars).
Python floats are modelled as rationals. -/
inductive PyVal where
  | vstr (s : String)
  | vint (n : Int)
  | vfloat (q : Rat)
  | vbool (b : Bool)
  deriving DecidableEq, Repr

/-- Python `isinstance(v, int)`; `bool` is a subclass of `int` in Python. -/
def isInstInt : PyVal → Bool
  | .vint _ => true
  | .vbool _ => true
  | _ => false

/-- Python `isinstance(v, (int, float))`; `bool` counts as `int`. -/
def isInstNumeric : PyVal → Bool
  | .vint _ => true
  | .vfloat _ => true
  | .vbool _ => true
  | _ => false

/-- The external Python primitives the coercion layer calls into. -/
structure PyPrims where
  parseFloat : String → Option Rat
  showFloat : Rat → String
  parseJsonArgs : String → Option (List (String × PyVal))

/-- Python `str(v)` on a scalar value. -/
def pyStr (prims : PyPrims) : PyVal → String
  | .vstr s => s
  | .vint n => toString n
  | .vfloat q => prims.showFloat q
  | .vbool b => if b then "True" else "False"

/-- Python `float(v)` on a scalar value; `none` models a raised ValueError. -/
def pyFloatOf (prims : PyPrims) : PyVal → Option Rat
  | .vstr s => prims.parseFloat s
  | .vint n => some (n : Rat)
  | .vfloat q => some q
  | .vbool b => some (if b then 1 else 0)

/-- Python `int(q)` on a float: truncation toward zero. -/
def ratTrunc (q : Rat) : Int := q.num.tdiv (q.den : Int)

/-- Python `bool(v)` truthiness on a scalar value. -/
def pyTruthy : PyVal → Bool
  | .vstr s => !(s == "")
  | .vint n => !(n == 0)
  | .vfloat q => !(q == 0)
  | .vbool b => b

/-- First list starts with the second one (character-wise). -/
def listStartsW : List Char → List Char → Bool
  | _, [] => true
  | [], _ :: _ => false
  | c :: cs, p :: ps => c == p && listStartsW cs ps

/-- The pattern occurs somewhere in the list. -/
def listHasSub (pat : List Char) : List Char → Bool
  | [] => pat.isEmpty
  | c :: cs => listStartsW (c :: cs) pat || listHasSub pat cs

/-- Python substring test `pat in s`, as used by the `"float" in param_type`
dispatch in `call_tool` and in the schema builders. -/
def containsTok (s pat : String) : Bool := listHasSub pat.data s.data

/-- First list ends with the second one. -/
def listEndsW (l pat : List Char) : Bool := l.drop (l.length - pat.length) == pat

/-- Python `s.endswith(pat)`. -/
def strEndsW (s pat : String) : Bool := listEndsW s.data pat.data

/-- ASCII lower-casing of one character, as Python str.lower on ASCII. -/
def charLower (c : Char) : Char :=
  if c.toNat >= 65 && c.toNat <= 90 then Char.ofNat (c.toNat + 32) else c

/-- Python `s.lower()` (ASCII). -/
def strLower (s : String) : String := ⟨s.data.map charLower⟩

/-- `param_value.lower() in ("true", "yes", "1", "y")` from `call_tool`. -/
def boolStrTrue (s : String) : Bool :=
  ["true", "yes", "1", "y"].contains (strLower s)

/-- Coercion of a single present parameter value, following the type-dispatch
chain of `CustomMCPClient.call_tool` (client_st.py lines 419-449): substring
match on the textual annotation, `float` first, then `int`, then `bool`,
otherwise stringify. `none` models a raised ValueError/TypeError, which the
caller turns into a per-parameter conversion failure. -/
def coerceParam (prims : PyPrims) (annot : String) (v : PyVal) : Option PyVal :=
  if containsTok annot "float" then
    if !(isInstNumeric v) then
      match pyFloatOf prims v with
      | some q => some (.vfloat q)
      | none => none
    else some v
  else if containsTok annot "int" then
    if !(isInstInt v) then
      match pyFloatOf prims v with
      | some q => some (.vint (ratTrunc q))
      | none => none
    else some v
  else if containsTok annot "bool" then
    match v with
    | .vbool b => some (.vbool b)
    | .vstr s => some (.vbool (boolStrTrue s))
    | _ => some (.vbool (pyTruthy v))
  else
    some (.vstr (pyStr prims v))

/-- First-match lookup in an ordered key/value list (a Python dict access). -/
def lookupKV : List (String × PyVal) → String → Option PyVal
  | [], _ => none
  | (k, v) :: rest, key => if k == key then some v else lookupKV rest key

/-- Python `key in dict`. -/
def hasKey (kvs : List (String × PyVal)) (key : String) : Bool :=
  (lookupKV kvs key).isSome

/-- The per-parameter loop of `call_tool`: walk the declared parameters in
order, skip the ones absent from the raw arguments, coerce the present ones;
the first conversion failure aborts the whole call with that parameter's
name. -/
def coerceArgs (prims : PyPrims) :
    List (String × String) → List (String × PyVal) →
    Except String (List (String × PyVal))
  | [], _ => .ok []
  | (pn, annot) :: rest, kvs =>
    match lookupKV kvs pn with
    | none => coerceArgs prims rest kvs
    | some v =>
      match coerceParam prims annot v with
      | none => .error pn
      | some w =>
        match coerceArgs prims rest kvs with
        | .error e => .error e
        | .ok tail => .ok ((pn, w) :: tail)

/-- A tool descriptor as extracted from the server script: name, description,
ordered parameter list (name, textual type annotation), return type. -/
structure ToolInfo where
  name : String
  description : String
  params : List (String × String)
  returnType : String
  deriving DecidableEq, Repr

/-- Raw tool arguments as received from a model tool-use block: either a
structured mapping or a serialized text blob (handled by json.loads). -/
inductive RawArgs where
  | dict (kvs : List (String × PyVal))
  | blob (s : String)
  deriving DecidableEq, Repr

/-- State of a `CustomMCPClient` (the In-Process backend): the remembered
script path and the extracted tool catalog. -/
structure CustomClientState where
  serverScriptPath : Option String
  availableTools : List ToolInfo
  deriving DecidableEq, Repr

/-- The loaded server script, as the dynamic import sees it: which function
names the module defines, and what each returns when run (external). -/
structure ScriptEnv where
  funcs : List String
  runTool : String → List (String × PyVal) → String

/-- The `for tool in self.available_tools: if tool["name"] == tool_name`
search with break. -/
def findTool : List ToolInfo → String → Option ToolInfo
  | [], _ => none
  | t :: rest, n => if t.name == n then some t else findTool rest n

/-- Possible contents of the `SimpleResponse` returned by
`CustomMCPClient.call_tool`, keeping each distinct error separate. -/
inductive CallResult where
  | toolNotFound (name : String)
  | argParseFailed (raw : String)
  | coerceFailed (param : String)
  | missingParams (names : List String)
  | onlyPython
  | funcNotFound (name : String)
  | execError (msg : String)
  | executed (funcName : String) (args : List (String × PyVal))
  deriving DecidableEq, Repr

/-- Observable side effects of one `call_tool` invocation: loading (executing)
the server script as a module, and running the named tool function. -/
inductive CallEffect where
  | loadModule (path : String)
  | execFunc (name : String)
  deriving DecidableEq, Repr

/-- The missing-parameter scan of `call_tool` (lines 453-457): declared
parameters absent from the given mapping, in declaration order. -/
def missingOf (ps : List (String × String)) (kvs : List (String × PyVal)) :
    List String :=
  ps.filterMap (fun p => if hasKey kvs p.1 then none else some p.1)

/-- The tail of `CustomMCPClient.call_tool` once the raw arguments are a
mapping (client_st.py lines 409-499): per-parameter coercion, the batched
missing-parameter check, the .py extension guard, then the dynamic module
load and function dispatch. -/
def callToolKvs (prims : PyPrims) (env : ScriptEnv) (st : CustomClientState)
    (ti : ToolInfo) (toolName : String) (kvs : List (String × PyVal)) :
    CallResult × List CallEffect :=
  match coerceArgs prims ti.params kvs with
  | .error pn => (.coerceFailed pn, [])
  | .ok processed =>
    if !(missingOf ti.params processed).isEmpty then
      (.missingParams (missingOf ti.params processed), [])
    else
      match st.serverScriptPath with
      | none => (.execError "NoneType object has no attribute endswith", [])
      | some path =>
        if !(strEndsW path ".py") then (.onlyPython, [])
        else if env.funcs.contains toolName then
          (.executed toolName processed, [.loadModule path, .execFunc toolName])
        else (.funcNotFound toolName, [.loadModule path])

/-- `CustomMCPClient.call_tool` (client_st.py lines 385-499): catalog lookup,
argument parsing (a text blob goes through json.loads), then the coercion,
missing-check, load and dispatch tail. The effect list records module loads
and function executions, in order. -/
def callTool (prims : PyPrims) (env : ScriptEnv) (st : CustomClientState)
    (toolName : String) (args : RawArgs) : CallResult × List CallEffect :=
  match findTool st.availableTools toolName with
  | none => (.toolNotFound toolName, [])
  | some ti =>
    match args with
    | .dict kvs => callToolKvs prims env st ti toolName kvs
    | .blob s =>
      match prims.parseJsonArgs s with
      | some kvs => callToolKvs prims env st ti toolName kvs
      | none => (.argParseFailed s, [])

/-- String content of the `SimpleResponse` produced for each `CallResult`;
error messages follow the source strings (line 397, 407, 447, 460, 469, 481,
498), an executed call carries the function's own result. -/
def renderResult (env : ScriptEnv) : CallResult → String
  | .toolNotFound n => "ツール \x27" ++ n ++ "\x27 は存在しません"
  | .argParseFailed raw => "引数の解析に失敗しました: " ++ raw
  | .coerceFailed p => "パラメータ " ++ p ++ " の型変換に失敗しました"
  | .missingParams ns => "必須パラメータが不足しています: " ++ String.intercalate ", " ns
  | .onlyPython => "現在はPythonスクリプト(.py)のみサポートしています"
  | .funcNotFound n => "関数 \x27" ++ n ++ "\x27 がサーバースクリプトに見つかりません"
  | .execError m => "ツール実行エラー: " ++ m
  | .executed n args => env.runTool n args

/-- A call result that is an error rather than an executed tool. -/
def isErrorResult : CallResult → Bool
  | .executed _ _ => false
  | _ => true

/-- A call result that actually ran the tool function. -/
def isExecuted : CallResult → Bool
  | .executed _ _ => true
  | _ => false

/-- Number of module loads in an effect list. -/
def loadCount : List CallEffect → Nat
  | [] => 0
  | .loadModule _ :: rest => loadCount rest + 1
  | .execFunc _ :: rest => loadCount rest

/-- One content block of a model response: plain text or a tool-use block
carrying a correlation id, a tool name and raw input. -/
inductive ContentBlock where
  | text (s : String)
  | toolUse (id : String) (name : String) (input : RawArgs)
  deriving DecidableEq, Repr

/-- Content of one conversation message: a plain string, the assistant's
content blocks echoed back wholesale, or a list of tool-result entries
(tool_use_id, content). -/
inductive MsgContent where
  | plain (s : String)
  | assistantBlocks (bs : List ContentBlock)
  | toolResults (entries : List (String × String))
  deriving DecidableEq, Repr

/-- One message of the conversation history. -/
structure Msg where
  role : String
  content : MsgContent
  deriving DecidableEq, Repr

/-- Whether a message content is a structured tool-results list. -/
def isToolResultsContent : MsgContent → Bool
  | .toolResults _ => true
  | _ => false

/-- Number of tool-use blocks in a model response. -/
def countToolUses : List ContentBlock → Nat
  | [] => 0
  | .toolUse _ _ _ :: bs => countToolUses bs + 1
  | .text _ :: bs => countToolUses bs

/-- Running state of `MCPClient.process_query`: the accumulated message
history, the transcript, and every follow-up model request issued so far
(each request given by the message history it was sent with). -/
structure McpRun where
  messages : List Msg
  finalText : List String
  followupRequests : List (List Msg)
  deriving DecidableEq, Repr

/-- One iteration of the content loop of `MCPClient.process_query`
(client_st.py lines 116-148). A tool-use block executes the tool (the error
text substituting for the result on failure), appends the result as a plain
user message — tool-use blocks carry no `text` attribute, so no assistant
message is appended — and immediately issues one follow-up model request
with the history so far, appending the reply's first text to the transcript. -/
def mcpStep (execT : String → RawArgs → Except String String)
    (reply : List Msg → String) (acc : McpRun) : ContentBlock → McpRun
  | .text s => { acc with finalText := acc.finalText ++ [s] }
  | .toolUse _ name args =>
    let content :=
      match execT name args with
      | .ok c => c
      | .error e => "ツール呼び出しエラー: " ++ e
    let msgs := acc.messages ++ [⟨"user", .plain content⟩]
    { messages := msgs
      finalText := acc.finalText ++
        ["[ツール呼び出し: " ++ name ++ "]", "結果: " ++ content, reply msgs]
      followupRequests := acc.followupRequests ++ [msgs] }

/-- Initial state of `MCPClient.process_query`: history holding just the
user query. -/
def mcpInit (query : String) : McpRun := ⟨[⟨"user", .plain query⟩], [], []⟩

/-- `MCPClient.process_query` from the initial model response's content
blocks on: `execT` is the remote `session.call_tool` (an `Except.error`
models a raised exception), `reply` the upstream model's follow-up answer. -/
def mcpProcessQuery (execT : String → RawArgs → Except String String)
    (reply : List Msg → String) (query : String)
    (blocks : List ContentBlock) : McpRun :=
  blocks.foldl (mcpStep execT reply) (mcpInit query)

/-- Result of `CustomMCPClient.process_query`: transcript and the follow-up
model requests issued. -/
structure CustomRun where
  finalText : List String
  followupRequests : List (List Msg)
  deriving DecidableEq, Repr

/-- One iteration of the content loop of `CustomMCPClient.process_query`
(client_st.py lines 328-353): accumulate transcript lines and the
`tool_uses` list of (id, result content) pairs; `call_tool` never raises,
errors are already rendered into the result content. -/
def customStep (prims : PyPrims) (env : ScriptEnv) (st : CustomClientState)
    (acc : List String × List (String × String)) : ContentBlock →
    List String × List (String × String)
  | .text s => (acc.1 ++ [s], acc.2)
  | .toolUse tid name args =>
    let content := renderResult env (callTool prims env st name args).1
    (acc.1 ++ ["[ツール呼び出し: " ++ name ++ "]", "結果: " ++ content],
     acc.2 ++ [(tid, content)])

/-- The (id, result content) entry one content block contributes to
`tool_uses`, if any. -/
def customEntry (prims : PyPrims) (env : ScriptEnv) (st : CustomClientState) :
    ContentBlock → Option (String × String)
  | .text _ => none
  | .toolUse tid name args =>
    some (tid, renderResult env (callTool prims env st name args).1)

/-- `CustomMCPClient.process_query` from the initial model response's content
blocks on (client_st.py lines 324-383): walk the blocks, then — only if some
tool was used — rebuild the history as [user query, assistant blocks, one
user message holding one tool_result entry per invocation] and issue exactly
one follow-up model request. -/
def customProcessQuery (prims : PyPrims) (env : ScriptEnv)
    (st : CustomClientState) (reply : List Msg → String) (query : String)
    (blocks : List ContentBlock) : CustomRun :=
  let r := blocks.foldl (customStep prims env st) ([], [])
  if r.2.isEmpty then ⟨r.1, []⟩
  else
    let msgs : List Msg :=
      [⟨"user", .plain query⟩, ⟨"assistant", .assistantBlocks blocks⟩,
       ⟨"user", .toolResults r.2⟩]
    ⟨r.1 ++ [reply msgs], [msgs]⟩

/-- Observable effects of a `connect_to_server` call. -/
inductive ConnEffect where
  | spawnProcess (cmd : String) (scriptPath : String)
  | handshake
  | listToolsCall
  | scanFile (path : String)
  deriving DecidableEq, Repr

/-- State of an `MCPClient` (the Remote-Process backend): the connected
script path, if any, and whether the exit stack still holds live transports. -/
structure MCPClientState where
  session : Option String
  stackOpen : Bool
  deriving DecidableEq, Repr

/-- The extension error raised by both `connect_to_server` variants. -/
def extMsg : String := "サーバースクリプトは.pyまたは.jsファイルでなければなりません"

/-- `MCPClient.connect_to_server` (client_st.py lines 46-82): extension check
first; only a recognized extension reaches process spawn, handshake and tool
listing. Returns (new state, outcome, effects in order). -/
def mcpConnect (st : MCPClientState) (path : String) :
    MCPClientState × Except String Bool × List ConnEffect :=
  let isPython := strEndsW path ".py"
  let isJs := strEndsW path ".js"
  if !(isPython || isJs) then (st, .error extMsg, [])
  else
    let cmd := if isPython then "python" else "node"
    ({ session := some path, stackOpen := true }, .ok true,
     [.spawnProcess cmd path, .handshake, .listToolsCall])

/-- `CustomMCPClient.connect_to_server` (client_st.py lines 210-235): the
script path is remembered first, then the extension check runs, and only a
recognized extension reaches the text scan (`extract_tools_from_script`,
given here as the external `extract`). -/
def customConnect (extract : String → List ToolInfo) (st : CustomClientState)
    (path : String) : CustomClientState × Except String Bool × List ConnEffect :=
  let st1 := { st with serverScriptPath := some path }
  let isPython := strEndsW path ".py"
  let isJs := strEndsW path ".js"
  if !(isPython || isJs) then (st1, .error extMsg, [])
  else ({ st1 with availableTools := extract path }, .ok true, [.scanFile path])

/-- `CustomMCPClient.cleanup` (client_st.py lines 501-504): logs and returns
True; the client state is untouched. -/
def customCleanup (st : CustomClientState) : CustomClientState × Bool := (st, true)

/-- `MCPClient.cleanup` (client_st.py lines 152-155): `exit_stack.aclose()`
closes every transport held by the exit stack and empties it. -/
def mcpCleanup (st : MCPClientState) : MCPClientState := { st with stackOpen := false }

/-- Modelled from the spec: the remote `session.call_tool` round-trip of the
MCP library, which is not part of src — a call is forwarded over the stdio
transport and requires a connected session with an open transport; `cleanup`
"terminates the child process and closes the transport", after which calls
fail. `remote` is the server's externally-given answer. -/
def mcpSessionCall (remote : String → RawArgs → String) (st : MCPClientState)
    (name : String) (args : RawArgs) : Except String String :=
  if st.stackOpen && st.session.isSome then .ok (remote name args)
  else .error "transport closed"

/-- A message whose content is not a structured tool-results list. -/
def msgPlainOnly (m : Msg) : Bool := !(isToolResultsContent m.content)

theorem loadCount_append (a b : List CallEffect) :
    loadCount (a ++ b) = loadCount a + loadCount b := by
  induction a with
  | nil => simp [loadCount]
  | cons e rest ih =>
    cases e with
    | loadModule p => simp [loadCount, ih]; omega
    | execFunc n => simp [loadCount, ih]

theorem mcpFold_followup_len (execT : String → RawArgs → Except String String)
    (reply : List Msg → String) (acc : McpRun) (bs : List ContentBlock) :
    (bs.foldl (mcpStep execT reply) acc).followupRequests.length =
      acc.followupRequests.length + countToolUses bs := by
  induction bs generalizing acc with
  | nil => simp [countToolUses]
  | cons b bs ih =>
    cases b with
    | text s =>
      rw [List.foldl_cons, ih]
      simp [mcpStep, countToolUses]
    | toolUse tid name args =>
      rw [List.foldl_cons, ih]
      simp [mcpStep, countToolUses]
      omega

theorem mcpStep_followup_ext (execT : String → RawArgs → Except String String)
    (reply : List Msg → String) (acc : McpRun) (b : ContentBlock) :
    ∃ e, (mcpStep execT reply acc b).followupRequests =
      acc.followupRequests ++ e := by
  cases b with
  | text s => exact ⟨[], by simp [mcpStep]⟩
  | toolUse tid name args => exact ⟨[_], rfl⟩

theorem mcpFold_followup_ext (execT : String → RawArgs → Except String String)
    (reply : List Msg → String) (acc : McpRun) (bs : List ContentBlock) :
    ∃ e, (bs.foldl (mcpStep execT reply) acc).followupRequests =
      acc.followupRequests ++ e := by
  induction bs generalizing acc with
  | nil => exact ⟨[], by simp⟩
  | cons b bs ih =>
    obtain ⟨e1, he1⟩ := mcpStep_followup_ext execT reply acc b
    obtain ⟨e2, he2⟩ := ih (mcpStep execT reply acc b)
    exact ⟨e1 ++ e2, by rw [List.foldl_cons, he2, he1, List.append_assoc]⟩

theorem mcpFold_no_toolResults (execT : String → RawArgs → Except String String)
    (reply : List Msg → String) (acc : McpRun) (bs : List ContentBlock)
    (h1 : acc.messages.all msgPlainOnly = true)
    (h2 : acc.followupRequests.all (fun req => req.all msgPlainOnly) = true) :
    ((bs.foldl (mcpStep execT reply) acc).followupRequests.all
      (fun req => req.all msgPlainOnly)) = true := by
  induction bs generalizing acc with
  | nil => simpa using h2
  | cons b bs ih =>
    rw [List.foldl_cons]
    apply ih
    · cases b with
      | text s => simpa [mcpStep] using h1
      | toolUse tid name args =>
        simp [mcpStep, List.all_append, msgPlainOnly, isToolResultsContent, h1]
    · cases b with
      | text s => simpa [mcpStep] using h2
      | toolUse tid name args =>
        simp [mcpStep, List.all_append, msgPlainOnly, isToolResultsContent, h1, h2]

theorem customFold_snd (prims : PyPrims) (env : ScriptEnv)
    (st : CustomClientState) (acc : List String × List (String × String))
    (bs : List ContentBlock) :
    (bs.foldl (customStep prims env st) acc).2 =
      acc.2 ++ bs.filterMap (customEntry prims env st) := by
  induction bs generalizing acc with
  | nil => simp
  | cons b bs ih =>
    cases b with
    | text s =>
      rw [List.foldl_cons, ih]
      simp [customStep, customEntry]
    | toolUse tid name args =>
      rw [List.foldl_cons, ih]
      simp [customStep, customEntry]

theorem customEntry_length (prims : PyPrims) (env : ScriptEnv)
    (st : CustomClientState) (bs : List ContentBlock) :
    (bs.filterMap (customEntry prims env st)).length = countToolUses bs := by
  induction bs with
  | nil => rfl
  | cons b bs ih => cases b <;> simp [customEntry, countToolUses, ih]

theorem coerceArgs_hasKey (prims : PyPrims) (ps : List (String × String))
    (kvs processed : List (String × PyVal))
    (h : coerceArgs prims ps kvs = .ok processed) (k : String) :
    hasKey processed k = (ps.any (fun p => p.1 == k) && hasKey kvs k) := by
  induction ps generalizing processed with
  | nil =>
    simp only [coerceArgs, Except.ok.injEq] at h
    subst h
    simp [hasKey, lookupKV]
  | cons p rest ih =>
    obtain ⟨pn, annot⟩ := p
    simp only [coerceArgs] at h
    split at h
    case _ hl =>
      have hkv : hasKey kvs pn = false := by simp [hasKey, hl]
      rw [ih processed h]
      by_cases hpk : (pn == k) = true
      · have hk : pn = k := eq_of_beq hpk
        subst hk
        simp [hkv]
      · simp only [List.any_cons, hpk]
        simp
    case _ v hl =>
      split at h
      case _ hc => simp at h
      case _ w hc =>
        split at h
        case _ e hr => simp at h
        case _ tail hr =>
          simp only [Except.ok.injEq] at h
          subst h
          by_cases hpk : (pn == k) = true
          · have hk : pn = k := eq_of_beq hpk
            subst hk
            simp [hasKey, lookupKV, hl]
          · have h1 : hasKey ((pn, w) :: tail) k = hasKey tail k := by
              simp [hasKey, lookupKV, hpk]
            rw [h1, ih tail hr, List.any_cons]
            simp [hpk]

theorem missingOf_processed (prims : PyPrims) (ps : List (String × String))
    (kvs processed : List (String × PyVal))
    (h : coerceArgs prims ps kvs = .ok processed) :
    missingOf ps processed = missingOf ps kvs := by
  unfold missingOf
  apply List.filterMap_congr
  intro p hp
  have hany : ps.any (fun q => q.1 == p.1) = true := by
    apply List.any_eq_true.mpr
    exact ⟨p, hp, by simp⟩
  have hk : hasKey processed p.1 = hasKey kvs p.1 := by
    rw [coerceArgs_hasKey prims ps kvs processed h p.1, hany, Bool.true_and]
  rw [hk]

/-! Concrete fixtures used by witnesses and counterexamples. -/

/-- Trivial external primitives: no string parses as a float, floats render
empty, no text blob parses as arguments. -/
def prims0 : PyPrims := ⟨fun _ => none, fun _ => "", fun _ => none⟩

/-- A loaded module defining no function. -/
def env0 : ScriptEnv := ⟨[], fun _ _ => ""⟩

/-- A loaded module defining one function `ping` answering "pong". -/
def envPing : ScriptEnv := ⟨["ping"], fun _ _ => "pong"⟩

/-- A connected .py session whose catalog holds the parameterless tool
`ping`. -/
def stPing : CustomClientState := ⟨some "server.py", [⟨"ping", "d", [], "str"⟩]⟩

/-- A connected .py session whose catalog declares tool `add` with the two
string parameters a and b. -/
def stAdd : CustomClientState :=
  ⟨some "server.py", [⟨"add", "", [("a", "str"), ("b", "str")], "str"⟩]⟩

/-- A connected .js in-process session whose catalog holds one parameterless
tool `f`. -/
def stJs : CustomClientState := ⟨some "s.js", [⟨"f", "d", [], "str"⟩]⟩

/-- A connected .js in-process session with an empty catalog. -/
def stJsEmpty : CustomClientState := ⟨some "s.js", []⟩

/-! The claims. -/

/-- C5: if the raw arguments (already a mapping) omit one or more declared
parameters while every supplied parameter coerces successfully, `call_tool`
fails with a single missing-parameter error listing all the missing names
together in declaration order, and no module load or function execution
occurs (no partial invocation). -/
theorem c5_missing_params_batched (prims : PyPrims) (env : ScriptEnv)
    (st : CustomClientState) (toolName : String)
    (kvs processed : List (String × PyVal)) (ti : ToolInfo)
    (hfind : findTool st.availableTools toolName = some ti)
    (hco : coerceArgs prims ti.params kvs = .ok processed)
    (hmiss : missingOf ti.params kvs ≠ []) :
    callTool prims env st toolName (.dict kvs) =
      (.missingParams (missingOf ti.params kvs), []) := by
  have hmp := missingOf_processed prims ti.params kvs processed hco
  have hne : ((missingOf ti.params processed).isEmpty) = false := by
    rw [hmp]
    cases hM : missingOf ti.params kvs with
    | nil => exact absurd hM hmiss
    | cons a l => rfl
  simp only [callTool, callToolKvs, hfind, hco, hne, hmp]
  simp
  intro hcon
  exact absurd hcon hmiss

/-- Witness for C5: the tool `add` requires a and b; a call supplying only a
yields the single error naming exactly b, with no module load. -/
theorem c5_witness :
    callTool prims0 env0 stAdd "add" (.dict [("a", .vstr "x")]) =
      (.missingParams ["b"], []) :=
  c5_missing_params_batched prims0 env0 stAdd "add" [("a", .vstr "x")]
    [("a", .vstr "x")] ⟨"add", "", [("a", "str"), ("b", "str")], "str"⟩
    rfl rfl (by decide)

/-- C6: for a parameter whose annotation resolves to the boolean tag (the
annotation contains "bool" and neither "float" nor "int"), an
already-boolean value passes through unchanged, and a string coerces to the
case-insensitive membership test against {"true", "yes", "1", "y"}; every
string failing the test — "false", "no", "0" and all others — gives false. -/
theorem c6_bool_coercion (prims : PyPrims) (annot : String)
    (hf : containsTok annot "float" = false)
    (hi : containsTok annot "int" = false)
    (hb : containsTok annot "bool" = true) :
    (∀ b, coerceParam prims annot (.vbool b) = some (.vbool b)) ∧
    (∀ s, coerceParam prims annot (.vstr s) = some (.vbool (boolStrTrue s))) := by
  constructor
  · intro b; simp [coerceParam, hf, hi, hb]
  · intro s; simp [coerceParam, hf, hi, hb]

/-- Witness for C6 at the annotation "bool": "true", "Yes", "1", "y" map to
true; "false", "no", "0" and an arbitrary other string map to false; a
boolean passes through. -/
theorem c6_witness :
    coerceParam prims0 "bool" (.vbool true) = some (.vbool true) ∧
    coerceParam prims0 "bool" (.vstr "true") = some (.vbool true) ∧
    coerceParam prims0 "bool" (.vstr "Yes") = some (.vbool true) ∧
    coerceParam prims0 "bool" (.vstr "1") = some (.vbool true) ∧
    coerceParam prims0 "bool" (.vstr "y") = some (.vbool true) ∧
    coerceParam prims0 "bool" (.vstr "false") = some (.vbool false) ∧
    coerceParam prims0 "bool" (.vstr "no") = some (.vbool false) ∧
    coerceParam prims0 "bool" (.vstr "0") = some (.vbool false) ∧
    coerceParam prims0 "bool" (.vstr "hello") = some (.vbool false) := by
  have h := c6_bool_coercion prims0 "bool" rfl rfl rfl
  exact ⟨h.1 true, h.2 "true", h.2 "Yes", h.2 "1", h.2 "y", h.2 "false",
    h.2 "no", h.2 "0", h.2 "hello"⟩

/-- C7: coercion is idempotent — whenever coercion of a value succeeds, the
result coerces again under the same declared tag to itself, for every type
tag (string, integer, float, boolean) and every external float parser. -/
theorem c7_coercion_idempotent (prims : PyPrims) (annot : String)
    (v w : PyVal) (h : coerceParam prims annot v = some w) :
    coerceParam prims annot w = some w := by
  unfold coerceParam at h ⊢
  split at h
  next hf =>
    rw [if_pos hf]
    split at h
    next hnum =>
      split at h
      next q hq =>
        simp only [Option.some.injEq] at h
        subst h
        simp [isInstNumeric]
      next hq => exact Option.noConfusion h
    next hnum =>
      simp only [Option.some.injEq] at h
      subst h
      rw [if_neg hnum]
  next hf =>
    rw [if_neg hf]
    split at h
    next hi =>
      rw [if_pos hi]
      split at h
      next hint =>
        split at h
        next q hq =>
          simp only [Option.some.injEq] at h
          subst h
          simp [isInstInt]
        next hq => exact Option.noConfusion h
      next hint =>
        simp only [Option.some.injEq] at h
        subst h
        rw [if_neg hint]
    next hi =>
      rw [if_neg hi]
      split at h
      next hb =>
        rw [if_pos hb]
        split at h
        next b => simp only [Option.some.injEq] at h; subst h; rfl
        next s => simp only [Option.some.injEq] at h; subst h; rfl
        next v hnb hns => simp only [Option.some.injEq] at h; subst h; rfl
      next hb =>
        rw [if_neg hb]
        simp only [Option.some.injEq] at h
        subst h
        rfl

/-- Witness for C7: "Yes" under the boolean tag coerces to true, and the
coerced boolean re-coerces to itself. -/
theorem c7_witness :
    coerceParam prims0 "bool" (.vstr "Yes") = some (.vbool true) ∧
    coerceParam prims0 "bool" (.vbool true) = some (.vbool true) :=
  ⟨rfl, c7_coercion_idempotent prims0 "bool" (.vstr "Yes") (.vbool true) rfl⟩

/-- C8: connecting with a path whose extension is neither .py nor .js fails
for both backends with the extension error before any effect — no process
spawn, no handshake, no text scan of the source file. The Remote-Process
state is untouched and the In-Process state only remembers the path, its
catalog unchanged: the session stays unconnected. -/
theorem c8_bad_extension (st : MCPClientState) (cst : CustomClientState)
    (extract : String → List ToolInfo) (path : String)
    (hpy : strEndsW path ".py" = false) (hjs : strEndsW path ".js" = false) :
    mcpConnect st path = (st, .error extMsg, []) ∧
    customConnect extract cst path =
      ({ cst with serverScriptPath := some path }, .error extMsg, []) := by
  constructor
  · simp [mcpConnect, hpy, hjs]
  · simp [customConnect, hpy, hjs]

/-- Witness for C8 at the path "server.txt" on fresh sessions of both
backends. -/
theorem c8_witness :
    strEndsW "server.txt" ".py" = false ∧ strEndsW "server.txt" ".js" = false ∧
    mcpConnect ⟨none, false⟩ "server.txt" = (⟨none, false⟩, .error extMsg, []) ∧
    customConnect (fun _ => []) ⟨none, []⟩ "server.txt" =
      (⟨some "server.txt", []⟩, .error extMsg, []) := by
  have h := c8_bad_extension ⟨none, false⟩ ⟨none, []⟩ (fun _ => []) "server.txt" rfl rfl
  exact ⟨rfl, rfl, h.1, h.2⟩

/-- C1 (amended): the In-Process backend issues exactly one follow-up model
request when the response contains k ≥ 1 tool-use blocks and none when
k = 0; the Remote-Process backend instead issues one follow-up request per
tool-use block — exactly k of them. -/
theorem c1_followup_request_count
    (execT : String → RawArgs → Except String String)
    (mreply creply : List Msg → String) (prims : PyPrims) (env : ScriptEnv)
    (st : CustomClientState) (query : String) (blocks : List ContentBlock) :
    (mcpProcessQuery execT mreply query blocks).followupRequests.length =
      countToolUses blocks ∧
    (customProcessQuery prims env st creply query blocks).followupRequests.length =
      (if countToolUses blocks = 0 then 0 else 1) := by
  constructor
  · have h := mcpFold_followup_len execT mreply (mcpInit query) blocks
    simpa [mcpProcessQuery, mcpInit] using h
  · have h2 := customFold_snd prims env st ([], []) blocks
    have hlen := customEntry_length prims env st blocks
    simp only [customProcessQuery]
    rw [h2, List.nil_append]
    cases hF : blocks.filterMap (customEntry prims env st) with
    | nil =>
      rw [hF] at hlen
      simp [← hlen]
    | cons a l =>
      rw [hF] at hlen
      simp [← hlen]

/-- Counterexample to C1 as stated: a Remote-Process model response holding
two tool-use blocks makes `process_query` issue two follow-up model
requests, not one. -/
theorem c1_counterexample :
    (mcpProcessQuery (fun _ _ => .ok "res") (fun _ => "r") "hi"
      [.toolUse "t1" "f" (.dict []),
       .toolUse "t2" "g" (.dict [])]).followupRequests.length = 2 ∧
    (2 : Nat) ≠ 1 := ⟨rfl, by decide⟩

/-- C2 (amended): the In-Process backend's single follow-up request carries
exactly one tool-result entry per invocation, in invocation order, each
keyed by the tool-use id copied exactly from the model's block (the entry
list is the in-order image of the tool-use blocks under `customEntry`); the
Remote-Process backend's follow-up requests, by contrast, consist of plain
messages only — no request of its ever contains a tool-result entry. -/
theorem c2_tool_result_entries
    (prims : PyPrims) (env : ScriptEnv) (st : CustomClientState)
    (creply mreply : List Msg → String)
    (execT : String → RawArgs → Except String String)
    (query : String) (blocks : List ContentBlock) :
    (customProcessQuery prims env st creply query blocks).followupRequests =
      (if (blocks.filterMap (customEntry prims env st)).isEmpty then []
       else [[⟨"user", .plain query⟩, ⟨"assistant", .assistantBlocks blocks⟩,
              ⟨"user", .toolResults (blocks.filterMap (customEntry prims env st))⟩]]) ∧
    ((mcpProcessQuery execT mreply query blocks).followupRequests.all
      (fun req => req.all msgPlainOnly)) = true := by
  constructor
  · have h2 := customFold_snd prims env st ([], []) blocks
    simp only [customProcessQuery]
    rw [h2, List.nil_append]
    by_cases hE : (blocks.filterMap (customEntry prims env st)).isEmpty = true
    · simp [hE]
    · simp [hE]
  · exact mcpFold_no_toolResults execT mreply (mcpInit query) blocks rfl rfl

/-- Counterexample to C2 as stated: the Remote-Process backend processing a
response with one tool-use block of id "t1" sends a follow-up request made
of plain user messages only — it contains no tool-result entry, so no entry
carries the id "t1" although one invocation happened. -/
theorem c2_counterexample :
    (mcpProcessQuery (fun _ _ => .ok "res") (fun _ => "r") "hi"
      [.toolUse "t1" "f" (.dict [])]).followupRequests =
      [[⟨"user", .plain "hi"⟩, ⟨"user", .plain "res"⟩]] ∧
    ([[(⟨"user", .plain "hi"⟩ : Msg), ⟨"user", .plain "res"⟩]].all
      (fun req => req.all msgPlainOnly)) = true := ⟨rfl, rfl⟩

theorem callToolKvs_load (prims : PyPrims) (env : ScriptEnv)
    (st : CustomClientState) (ti : ToolInfo) (toolName : String)
    (kvs : List (String × PyVal))
    (hex : isExecuted (callToolKvs prims env st ti toolName kvs).1 = true) :
    loadCount (callToolKvs prims env st ti toolName kvs).2 = 1 := by
  cases hc : coerceArgs prims ti.params kvs with
  | error pn => simp [callToolKvs, hc, isExecuted] at hex
  | ok processed =>
    by_cases hm : (missingOf ti.params processed).isEmpty = true
    · cases hp : st.serverScriptPath with
      | none => simp [callToolKvs, hc, hm, hp, isExecuted] at hex
      | some path =>
        by_cases hpy : strEndsW path ".py" = true
        · by_cases hfn : toolName ∈ env.funcs
          · simp [callToolKvs, hc, hm, hp, hpy, hfn, loadCount]
          · simp [callToolKvs, hc, hm, hp, hpy, hfn, isExecuted] at hex
        · simp [callToolKvs, hc, hm, hp, hpy, isExecuted] at hex
    · simp [callToolKvs, hc, hm, isExecuted] at hex

theorem callTool_load_execed (prims : PyPrims) (env : ScriptEnv)
    (st : CustomClientState) (toolName : String) (args : RawArgs)
    (hex : isExecuted (callTool prims env st toolName args).1 = true) :
    loadCount (callTool prims env st toolName args).2 = 1 := by
  cases hf : findTool st.availableTools toolName with
  | none => simp [callTool, hf, isExecuted] at hex
  | some ti =>
    cases args with
    | dict kvs =>
      simp only [callTool, hf] at hex ⊢
      exact callToolKvs_load prims env st ti toolName kvs hex
    | blob s =>
      cases hj : prims.parseJsonArgs s with
      | none => simp [callTool, hf, hj, isExecuted] at hex
      | some kvs =>
        simp only [callTool, hf, hj] at hex ⊢
        exact callToolKvs_load prims env st ti toolName kvs hex

/-- C3 (amended): the In-Process backend does not cache the loaded tool
source: every call that reaches execution loads (executes) the source anew —
exactly one load per such call — and the session state is never updated, so
two successive identical calls load the source twice, not once. -/
theorem c3_load_on_every_call (prims : PyPrims) (env : ScriptEnv)
    (st : CustomClientState) (toolName : String) (args : RawArgs) :
    loadCount ((callTool prims env st toolName args).2 ++
               (callTool prims env st toolName args).2) =
      2 * loadCount (callTool prims env st toolName args).2 ∧
    (isExecuted (callTool prims env st toolName args).1 = true →
      loadCount (callTool prims env st toolName args).2 = 1) := by
  constructor
  · rw [loadCount_append]; ring
  · exact callTool_load_execed prims env st toolName args

/-- Witness for C3 (amended): an executing call loads the source once, and
the two-call session loads it twice. -/
theorem c3_witness :
    isExecuted (callTool prims0 envPing stPing "ping" (.dict [])).1 = true ∧
    loadCount ((callTool prims0 envPing stPing "ping" (.dict [])).2 ++
               (callTool prims0 envPing stPing "ping" (.dict [])).2) =
      2 * loadCount (callTool prims0 envPing stPing "ping" (.dict [])).2 ∧
    loadCount (callTool prims0 envPing stPing "ping" (.dict [])).2 = 1 := by
  have h := c3_load_on_every_call prims0 envPing stPing "ping" (.dict [])
  exact ⟨rfl, h.1, h.2 rfl⟩

/-- Counterexample to C3 as stated: two successive calls on one session load
and execute the tool source twice, contradicting "at most once per session,
cached". -/
theorem c3_counterexample :
    loadCount ((callTool prims0 envPing stPing "ping" (.dict [])).2 ++
               (callTool prims0 envPing stPing "ping" (.dict [])).2) = 2 ∧
    ¬((2 : Nat) ≤ 1) := ⟨rfl, by decide⟩

/-- C4 (amended): cleanup is idempotent for both backends, and the
Remote-Process cleanup closes the exit stack's transport so every subsequent
session call fails; but the In-Process cleanup is a no-op that returns True
and leaves the session state unchanged, so tool calls on that session still
behave exactly as before cleanup — the session is not made unusable. -/
theorem c4_cleanup (st : MCPClientState) (cst : CustomClientState)
    (remote : String → RawArgs → String) (name : String) (args : RawArgs) :
    mcpCleanup (mcpCleanup st) = mcpCleanup st ∧
    customCleanup (customCleanup cst).1 = customCleanup cst ∧
    (customCleanup cst).1 = cst ∧
    mcpSessionCall remote (mcpCleanup st) name args = .error "transport closed" := by
  refine ⟨rfl, rfl, rfl, ?_⟩
  simp [mcpSessionCall, mcpCleanup]

/-- Counterexample to C4 as stated: after the In-Process cleanup the session
is still fully usable — the same tool call still executes the tool. -/
theorem c4_counterexample :
    (callTool prims0 envPing (customCleanup stPing).1 "ping" (.dict [])).1 =
      .executed "ping" [] ∧
    isExecuted (CallResult.executed "ping" []) = true := ⟨rfl, rfl⟩

/-- C9 (amended): a failed tool call never aborts the turn, for either
backend. Remote-Process: when the remote call raises, the error text becomes
the result, it is carried into the immediately-issued follow-up request as
the plain content of the appended user message (this backend builds no
structured tool-result entry), and every remaining block is still processed
(one further follow-up request per further tool-use block). In-Process: a
call whose result is an error still contributes its (id, rendered error
text) tool-result entry among the follow-up entries, and the single
follow-up request is still issued with the full entry list. -/
theorem c9_error_feeds_followup
    (execT : String → RawArgs → Except String String)
    (mreply creply : List Msg → String) (query tid name : String)
    (args : RawArgs) (e : String) (post : List ContentBlock)
    (prims : PyPrims) (env : ScriptEnv) (st : CustomClientState)
    (tid2 name2 : String) (args2 : RawArgs) (pre cpost : List ContentBlock)
    (hE : execT name args = .error e)
    (hErr : isErrorResult (callTool prims env st name2 args2).1 = true) :
    ((mcpProcessQuery execT mreply query
        (.toolUse tid name args :: post)).followupRequests.length =
          1 + countToolUses post ∧
      (mcpProcessQuery execT mreply query
        (.toolUse tid name args :: post)).followupRequests.head? =
          some [⟨"user", .plain query⟩,
                ⟨"user", .plain ("ツール呼び出しエラー: " ++ e)⟩]) ∧
    ((customProcessQuery prims env st creply query
        (pre ++ .toolUse tid2 name2 args2 :: cpost)).followupRequests =
        [[⟨"user", .plain query⟩,
          ⟨"assistant", .assistantBlocks (pre ++ .toolUse tid2 name2 args2 :: cpost)⟩,
          ⟨"user", .toolResults ((pre ++ .toolUse tid2 name2 args2 :: cpost).filterMap
            (customEntry prims env st))⟩]] ∧
      isErrorResult (callTool prims env st name2 args2).1 = true ∧
      (tid2, renderResult env (callTool prims env st name2 args2).1) ∈
        (pre ++ .toolUse tid2 name2 args2 :: cpost).filterMap
          (customEntry prims env st)) := by
  constructor
  · constructor
    · have h := mcpFold_followup_len execT mreply
        (mcpStep execT mreply (mcpInit query) (.toolUse tid name args)) post
      simp only [mcpProcessQuery, List.foldl_cons]
      rw [h]
      simp [mcpStep, mcpInit]
    · obtain ⟨ext, hext⟩ := mcpFold_followup_ext execT mreply
        (mcpStep execT mreply (mcpInit query) (.toolUse tid name args)) post
      simp only [mcpProcessQuery, List.foldl_cons]
      rw [hext]
      simp [mcpStep, mcpInit, hE]
  · have hMem : (tid2, renderResult env (callTool prims env st name2 args2).1) ∈
        (pre ++ .toolUse tid2 name2 args2 :: cpost).filterMap
          (customEntry prims env st) := by
      apply List.mem_filterMap.mpr
      exact ⟨.toolUse tid2 name2 args2, by simp, rfl⟩
    refine ⟨?_, hErr, hMem⟩
    have h2 := customFold_snd prims env st ([], [])
      (pre ++ .toolUse tid2 name2 args2 :: cpost)
    have hne : ((pre ++ .toolUse tid2 name2 args2 :: cpost).filterMap
        (customEntry prims env st)).isEmpty = false := by
      cases hF : (pre ++ .toolUse tid2 name2 args2 :: cpost).filterMap
          (customEntry prims env st) with
      | nil => rw [hF] at hMem; simp at hMem
      | cons a l => rfl
    simp only [customProcessQuery]
    rw [h2, List.nil_append, hne]
    simp only [Bool.false_eq_true, if_false]

/-- Witness for C9: a remote call raising "boom" and an in-process call
failing with tool-not-found both still reach the follow-up request. -/
theorem c9_witness :
    isErrorResult (callTool prims0 env0 stJsEmpty "f" (.dict [])).1 = true ∧
    (mcpProcessQuery (fun _ _ => .error "boom") (fun _ => "r") "hi"
      [.toolUse "t1" "g" (.dict [])]).followupRequests.head? =
      some [⟨"user", .plain "hi"⟩,
            ⟨"user", .plain ("ツール呼び出しエラー: " ++ "boom")⟩] ∧
    (customProcessQuery prims0 env0 stJsEmpty (fun _ => "r") "hi"
      [.toolUse "t2" "f" (.dict [])]).followupRequests =
      [[⟨"user", .plain "hi"⟩,
        ⟨"assistant", .assistantBlocks [.toolUse "t2" "f" (.dict [])]⟩,
        ⟨"user", .toolResults [("t2", "ツール \x27f\x27 は存在しません")]⟩]] := by
  have h := c9_error_feeds_followup (fun _ _ => .error "boom") (fun _ => "r")
    (fun _ => "r") "hi" "t1" "g" (.dict []) "boom" [] prims0 env0 stJsEmpty
    "t2" "f" (.dict []) [] [] rfl rfl
  exact ⟨rfl, h.1.2, h.2.1⟩

/-- Counterexample to C9 as stated: on the Remote-Process backend a failing
call's error text reaches the follow-up request only as the plain content of
a user message — the follow-up request contains no structured tool-result
entry at all, so the error is not "included as a tool-result entry". -/
theorem c9_counterexample :
    (mcpProcessQuery (fun _ _ => .error "oops") (fun _ => "s") "q"
      [.toolUse "u1" "h" (.dict [])]).followupRequests =
      [[⟨"user", .plain "q"⟩, ⟨"user", .plain "ツール呼び出しエラー: oops"⟩]] ∧
    ([[(⟨"user", .plain "q"⟩ : Msg),
       ⟨"user", .plain "ツール呼び出しエラー: oops"⟩]].all
      (fun req => req.all msgPlainOnly)) = true := ⟨rfl, rfl⟩

theorem callToolKvs_not_py (prims : PyPrims) (env : ScriptEnv)
    (st : CustomClientState) (ti : ToolInfo) (toolName : String)
    (kvs : List (String × PyVal)) (p : String)
    (hpath : st.serverScriptPath = some p) (hnp : strEndsW p ".py" = false) :
    isExecuted (callToolKvs prims env st ti toolName kvs).1 = false ∧
    (callToolKvs prims env st ti toolName kvs).2 = [] := by
  cases hc : coerceArgs prims ti.params kvs with
  | error pn => simp [callToolKvs, hc, isExecuted]
  | ok processed =>
    by_cases hm : (missingOf ti.params processed).isEmpty = true
    · simp [callToolKvs, hc, hm, hpath, hnp, isExecuted]
    · simp [callToolKvs, hc, hm, isExecuted]

/-- C10 (amended): the In-Process backend's connect accepts a .js source
path, yet no tool call on a session whose remembered path is not a .py file
ever loads or executes anything — every call returns an error with an empty
effect list. The only-Python error is the answer precisely of the calls that
pass catalog lookup, argument coercion and the missing-parameter check;
calls failing earlier return their own earlier error instead. -/
theorem c10_js_session_never_executes (extract : String → List ToolInfo)
    (cst : CustomClientState) (prims : PyPrims) (env : ScriptEnv)
    (st : CustomClientState) (p : String)
    (hjs : strEndsW p ".js" = true) (hnp : strEndsW p ".py" = false)
    (hpath : st.serverScriptPath = some p) :
    (customConnect extract cst p).2.1 = .ok true ∧
    (∀ toolName args,
      isExecuted (callTool prims env st toolName args).1 = false ∧
      (callTool prims env st toolName args).2 = []) ∧
    (∀ toolName kvs processed ti,
      findTool st.availableTools toolName = some ti →
      coerceArgs prims ti.params kvs = .ok processed →
      (missingOf ti.params processed).isEmpty = true →
      callTool prims env st toolName (.dict kvs) = (.onlyPython, [])) := by
  refine ⟨by simp [customConnect, hjs], ?_, ?_⟩
  · intro toolName args
    cases hf : findTool st.availableTools toolName with
    | none => simp [callTool, hf, isExecuted]
    | some ti =>
      cases args with
      | dict kvs =>
        simp only [callTool, hf]
        exact callToolKvs_not_py prims env st ti toolName kvs p hpath hnp
      | blob s =>
        cases hj : prims.parseJsonArgs s with
        | none => simp [callTool, hf, hj, isExecuted]
        | some kvs =>
          simp only [callTool, hf, hj]
          exact callToolKvs_not_py prims env st ti toolName kvs p hpath hnp
  · intro toolName kvs processed ti hfind hco hm
    simp [callTool, callToolKvs, hfind, hco, hm, hpath, hnp]

/-- Witness for C10 (amended): connect accepts "s.js"; on the .js session a
fully valid call gets the only-Python error and a call to an unknown tool
executes nothing. -/
theorem c10_witness :
    (customConnect (fun _ => []) ⟨none, []⟩ "s.js").2.1 = .ok true ∧
    isExecuted (callTool prims0 env0 stJs "g" (.dict [])).1 = false ∧
    callTool prims0 env0 stJs "f" (.dict []) = (.onlyPython, []) := by
  have h := c10_js_session_never_executes (fun _ => []) ⟨none, []⟩ prims0 env0
    stJs "s.js" rfl rfl rfl
  exact ⟨h.1, (h.2.1 "g" (.dict [])).1,
    h.2.2 "f" [] [] ⟨"f", "d", [], "str"⟩ rfl rfl rfl⟩

/-- Counterexample to C10 as stated: on a .js session with an empty catalog,
a tool call does not return the only-Python error — it fails earlier with
the tool-not-found error. -/
theorem c10_counterexample :
    (callTool prims0 env0 stJsEmpty "f" (.dict [])).1 = .toolNotFound "f" ∧
    CallResult.toolNotFound "f" ≠ CallResult.onlyPython := ⟨rfl, by decide⟩

end MCPSt
